import Mathlib

/-!
Verification of the HydrateMate reminder core (src/App.js).

The development shallowly embeds the reminder-scheduling routine
(`scheduleReminders`, lines 107-156), its helper
`cancelScheduledNotificationsAndClearStorage` (lines 94-102) and the intake
ledger (`addIntake` / `resetToday`, lines 194-208) of src/App.js.

Modelling conventions:
* JavaScript numbers appearing in the parsing code are either non-negative
  integers or `NaN`; we model such a value as `Option Nat`, with `none`
  standing for `NaN` (and for `undefined`, which behaves identically in every
  expression the code applies to these values: the `||` fallback and storage
  in a slot object).  `Number(s)` on the digit-string fragment relevant here
  is `jsNumber`; `Number('') = 0`.
* The JS `x || d` fallback on these values treats `0`, `NaN`, `undefined` and
  `''` as falsy (`jsOrN`, `jsOrS`).
* The key-value store and the notification platform are external
  collaborators; a `World` holds the value persisted under the
  notification-ids key and the set of platform-registered triggers, and a
  `Behavior` is an oracle fixing the outcome of every collaborator call
  (success, result value, or thrown exception).  `loadJson`/`saveJson`
  swallow their own storage exceptions (App.js lines 31-38), so a failed
  load yields the fallback and a failed save leaves the store unchanged;
  exceptions reach `scheduleReminders`' top-level catch only from the
  permission request or from `Notifications.scheduleNotificationAsync`.
-/

/-- JS `v || d` where `v` is a number-or-NaN-or-undefined (`none` = NaN or
undefined; `some 0` is also falsy). Models e.g. `(wakeH || 7)` at App.js:117. -/
def jsOrN (v : Option Nat) (d : Nat) : Nat :=
  match v with
  | some n => if n = 0 then d else n
  | none => d

/-- JS `v || d` where `v` is a string or undefined; `''` and `undefined` are
falsy. Models the fallback chains at App.js:113-114. -/
def jsOrS (v : Option String) (d : String) : String :=
  match v with
  | some s => if s = "" then d else s
  | none => d

/-- JS `s.split(':')` on the character list of `s` (App.js:113-114): always at
least one group, separators dropped. -/
def splitOnColon : List Char → List (List Char)
  | [] => [[]]
  | c :: rest =>
    if c = ':' then [] :: splitOnColon rest
    else
      match splitOnColon rest with
      | [] => [[c]]
      | g :: gs => (c :: g) :: gs

/-- Numeric value of a digit string. -/
def digitsVal (cs : List Char) : Nat :=
  cs.foldl (fun acc c => acc * 10 + (c.toNat - 48)) 0

/-- JS `Number(s)` restricted to the fragment exercised by the time parser:
`Number('') = 0`, a digit string is its value, anything else is `NaN`
(`none`). -/
def jsNumber (cs : List Char) : Option Nat :=
  if cs = [] then some 0
  else if cs.all Char.isDigit then some (digitsVal cs) else none

/-- `s.split(':').map(Number)` destructured into `[h, m]` (App.js:113-114):
component 0 and component 1, `none` when the component is missing
(`undefined`) or `NaN`. -/
def parseHM (s : String) : Option Nat × Option Nat :=
  let ps := (splitOnColon s.data).map jsNumber
  ((ps.get? 0).join, (ps.get? 1).join)

/-- `wakeMinutes = (wakeH || 7) * 60 + (wakeM || 0)` (App.js:117). -/
def wakeMinutesOf (s : String) : Nat :=
  jsOrN (parseHM s).1 7 * 60 + jsOrN (parseHM s).2 0

/-- `bedMinutes = (bedH || 23) * 60 + (bedM || 0)` before normalization
(App.js:118). -/
def bedMinutesRaw (s : String) : Nat :=
  jsOrN (parseHM s).1 23 * 60 + jsOrN (parseHM s).2 0

/-- `if (bedMinutes <= wakeMinutes) bedMinutes += 24 * 60` (App.js:119). -/
def bedMinutesNorm (wakeStr bedStr : String) : Nat :=
  if bedMinutesRaw bedStr ≤ wakeMinutesOf wakeStr then bedMinutesRaw bedStr + 1440
  else bedMinutesRaw bedStr

/-- A well-formed `HH:MM` time string: exactly two non-empty digit components,
hour below 24 and minute below 60. -/
def isValidHM (s : String) : Bool :=
  match splitOnColon s.data with
  | [h, m] =>
    !h.isEmpty && !m.isEmpty && h.all Char.isDigit && m.all Char.isDigit &&
      digitsVal h < 24 && digitsVal m < 60
  | _ => false

/-- A reminder slot `{hour, minute}` as pushed at App.js:126 and :128.  The
fields are JS numbers that can be `NaN`/`undefined` on the fallback path
(line 128 pushes the raw parsed `wakeH`/`wakeM`), hence `Option Nat`. -/
structure Slot where
  hour : Option Nat
  minute : Option Nat
deriving DecidableEq, Repr

/-- Slot built from a step value `t`: `minutesOfDay = t % 1440`,
`hour = floor(minutesOfDay / 60)`, `minute = minutesOfDay % 60`
(App.js:123-126). -/
def mkSlot (t : Nat) : Slot :=
  ⟨some (t % 1440 / 60), some (t % 1440 % 60)⟩

/-- The loop `for (let t = wakeMinutes; t <= bedMinutes; t += interval)`
(App.js:122), fuelled: `bed + 1 - start` iterations always suffice because the
reachable interval is at least 15. -/
def walkAux (bed interval : Nat) : Nat → Nat → List Nat
  | 0, _ => []
  | fuel + 1, t => if t ≤ bed then t :: walkAux bed interval fuel (t + interval) else []

/-- The step values visited by the planning loop. -/
def walk (start bed interval : Nat) : List Nat :=
  walkAux bed interval (bed + 1 - start) start

/-- The planner: the walked slots, or — when the walk is empty — the single
fallback slot built from the raw parsed wake components (App.js:121-128). -/
def planSlots (wakeStr bedStr : String) (interval : Nat) : List Slot :=
  let times := (walk (wakeMinutesOf wakeStr) (bedMinutesNorm wakeStr bedStr) interval).map mkSlot
  if times = [] then [⟨(parseHM wakeStr).1, (parseHM wakeStr).2⟩] else times

/-- User profile (App.js onboarding, lines 243-249).  Only the fields read by
the reminder core and the ledger are modelled; `weight`, `age` and
`createdAt` never reach them. -/
structure UserProfile where
  name : String
  wakeTime : Option String
  bedTime : Option String
  goal : Nat
deriving DecidableEq, Repr

/-- Settings (App.js:162). `reminderIntervalMins` is `none` when
null/undefined. -/
structure Settings where
  darkMode : Bool
  remindersEnabled : Bool
  reminderIntervalMins : Option Nat
  wakeTime : Option String
  bedTime : Option String
deriving DecidableEq, Repr

/-- `Math.max(15, settings.reminderIntervalMins || 120)` (App.js:115). -/
def intervalOf (s : Settings) : Nat :=
  max 15 (jsOrN s.reminderIntervalMins 120)

/-- Modelled from the spec: the interval formula the specification states,
`max(15, settings.reminderIntervalMins ?? 120)`, where `??` falls back only on
null/undefined (`none`).  Present solely to compare the spec's formula with
`intervalOf`, the formula the code computes. -/
def intervalFromSpec (s : Settings) : Nat :=
  max 15 (s.reminderIntervalMins.getD 120)

/-- `(user?.wakeTime || settings?.wakeTime || '07:00')` (App.js:113). -/
def wakeStrOf (u : UserProfile) (s : Settings) : String :=
  jsOrS u.wakeTime (jsOrS s.wakeTime "07:00")

/-- `(user?.bedTime || settings?.bedTime || '23:00')` (App.js:114). -/
def bedStrOf (u : UserProfile) (s : Settings) : String :=
  jsOrS u.bedTime (jsOrS s.bedTime "23:00")

/-- The observable state of the two external collaborators: the list persisted
under the notification-ids storage key (`HM_notif_ids_v2`) and the triggers
currently registered with the notification platform, named by their opaque
identifiers (modelled as `Nat`). -/
structure World where
  notifIds : List Nat
  registered : List Nat
deriving DecidableEq, Repr

/-- Oracle fixing the outcome of every collaborator call during one
invocation: whether the storage read of the ids list succeeds (a failed read
is swallowed by `loadJson` and yields the fallback `[]`), whether each
`cancelScheduledNotificationAsync(id)` resolves or rejects, whether the two
`saveJson` writes reach the store (their own exceptions are swallowed), and,
for the permission request and each `scheduleNotificationAsync` call, whether
it throws and what it returns.  `schedule k` is the outcome of the `k`-th
registration call: `some id` returns identifier `id`, `none` throws. -/
structure Behavior where
  loadOk : Bool
  cancelOk : Nat → Bool
  clearSaveOk : Bool
  permThrows : Bool
  permGranted : Bool
  schedule : Nat → Option Nat
  finalSaveOk : Bool

/-- `cancelScheduledNotificationsAndClearStorage` (App.js:94-102): load the
persisted ids (fallback `[]`), cancel them all via `Promise.all` — every
cancellation runs, a resolving one unregisters its trigger, and if any call
rejects the whole step throws, skipping the `saveJson([])`; the surrounding
try/catch swallows the exception either way. -/
def cancelAndClear (w : World) (b : Behavior) : World :=
  let ids := if b.loadOk then w.notifIds else []
  let reg := w.registered.filter (fun r => !(ids.contains r && b.cancelOk r))
  if ids.all b.cancelOk then
    { notifIds := if b.clearSaveOk then [] else w.notifIds, registered := reg }
  else
    { notifIds := w.notifIds, registered := reg }

/-- Result of the registration loop: final collaborator state, the
`createdIds` collected so far, and whether a registration call threw. -/
structure RegResult where
  world : World
  ids : List Nat
  threw : Bool
deriving Repr

/-- The registration loop `for (const tm of times) { ... createdIds.push(id) }`
(App.js:137-151): each successful `scheduleNotificationAsync` registers a
trigger and appends its identifier; a throwing call ends the loop with the
identifiers collected up to that point. -/
def registerAll (b : Behavior) : List Slot → Nat → World → RegResult
  | [], _, w => ⟨w, [], false⟩
  | _ :: rest, k, w =>
    match b.schedule k with
    | none => ⟨w, [], true⟩
    | some id =>
      let r := registerAll b rest (k + 1) { w with registered := w.registered ++ [id] }
      ⟨r.world, id :: r.ids, r.threw⟩

/-- The body of `scheduleReminders` inside its try block (App.js:108-154):
`Except.error ()` marks an exception escaping to the top-level catch (only the
permission request and trigger registration can raise one — the storage
helpers and the cancellation step swallow their own). -/
def scheduleRemindersBody (user : Option UserProfile) (settings : Option Settings)
    (w : World) (b : Behavior) : World × Except Unit (List Nat) :=
  let w1 := cancelAndClear w b
  match user, settings with
  | some u, some s =>
    if s.remindersEnabled then
      let times := planSlots (wakeStrOf u s) (bedStrOf u s) (intervalOf s)
      if b.permThrows then (w1, Except.error ())
      else if b.permGranted then
        let r := registerAll b times 0 w1
        if r.threw then (r.world, Except.error ())
        else ({ r.world with notifIds := if b.finalSaveOk then r.ids else r.world.notifIds },
              Except.ok r.ids)
      else (w1, Except.ok [])
    else (w1, Except.ok [])
  | _, _ => (w1, Except.ok [])

/-- `scheduleReminders(user, settings)` (App.js:107-156): the body wrapped in
the top-level try/catch, which converts any escaped exception into the return
value `[]` (App.js:155). -/
def scheduleReminders (user : Option UserProfile) (settings : Option Settings)
    (w : World) (b : Behavior) : World × List Nat :=
  match scheduleRemindersBody user settings w b with
  | (w', Except.ok ids) => (w', ids)
  | (w', Except.error _) => (w', [])

/-- One row of the intake log: `{date, intake}` (App.js:200). -/
structure IntakeRecord where
  date : String
  intake : Nat
deriving DecidableEq, Repr

/-- The core of `addIntake` (App.js:197-200): `findIndex` locates the first
record with today's date and its intake is incremented in place; with no
match, a fresh record is pushed at the end. -/
def addToLog (today : String) (amount : Nat) : List IntakeRecord → List IntakeRecord
  | [] => [⟨today, amount⟩]
  | r :: rest =>
    if r.date = today then ⟨r.date, r.intake + amount⟩ :: rest
    else r :: addToLog today amount rest

/-- `addIntake(amount, type)` (App.js:194-202): a missing user profile makes
it return without touching the log; `today` stands for `formatDate()` and the
unused `type` argument is omitted. -/
def addIntake (user : Option UserProfile) (today : String) (log : List IntakeRecord)
    (amount : Nat) : List IntakeRecord :=
  match user with
  | none => log
  | some _ => addToLog today amount log

/-- `resetToday` (App.js:204-208): drop every record carrying today's date. -/
def resetToday (today : String) (log : List IntakeRecord) : List IntakeRecord :=
  log.filter (fun r => r.date != today)

lemma walkAux_congr (bed i : Nat) (hi : 0 < i) :
    ∀ f g t, bed + 1 - t ≤ f → bed + 1 - t ≤ g → walkAux bed i f t = walkAux bed i g t := by
  intro f
  induction f with
  | zero =>
    intro g t hf _
    have ht : bed < t := by omega
    cases g with
    | zero => rfl
    | succ g' =>
      show ([] : List Nat) = if t ≤ bed then _ else []
      rw [if_neg (by omega)]
  | succ f' ih =>
    intro g t hf hg
    cases g with
    | zero =>
      have ht : bed < t := by omega
      show (if t ≤ bed then _ else []) = ([] : List Nat)
      rw [if_neg (by omega)]
    | succ g' =>
      show (if t ≤ bed then t :: walkAux bed i f' (t + i) else [])
          = (if t ≤ bed then t :: walkAux bed i g' (t + i) else [])
      by_cases ht : t ≤ bed
      · rw [if_pos ht, if_pos ht]
        have := ih g' (t + i) (by omega) (by omega)
        rw [this]
      · rw [if_neg ht, if_neg ht]

lemma walk_nil {start bed i : Nat} (h : bed < start) : walk start bed i = [] := by
  unfold walk
  have h0 : bed + 1 - start = 0 := by omega
  rw [h0]
  rfl

lemma walk_cons {start bed i : Nat} (hi : 0 < i) (ht : start ≤ bed) :
    walk start bed i = start :: walk (start + i) bed i := by
  unfold walk
  have h1 : bed + 1 - start = (bed - start) + 1 := by omega
  rw [h1]
  show (if start ≤ bed then start :: walkAux bed i (bed - start) (start + i) else [])
      = start :: walkAux bed i (bed + 1 - (start + i)) (start + i)
  rw [if_pos ht]
  have := walkAux_congr bed i hi (bed - start) (bed + 1 - (start + i)) (start + i)
    (by omega) (by omega)
  rw [this]

lemma walk_eq_range {bed i : Nat} (hi : 0 < i) :
    ∀ t, t ≤ bed →
      walk t bed i = (List.range ((bed - t) / i + 1)).map (fun k => t + k * i) := by
  suffices H : ∀ n t, t ≤ bed → bed - t ≤ n →
      walk t bed i = (List.range ((bed - t) / i + 1)).map (fun k => t + k * i) by
    intro t ht
    exact H (bed - t) t ht le_rfl
  intro n
  induction n with
  | zero =>
    intro t ht hle
    have hbt : bed = t := by omega
    rw [walk_cons hi ht, walk_nil (by omega)]
    have h0 : (bed - t) / i = 0 := by
      have : bed - t = 0 := by omega
      simp [this]
    rw [h0]
    simp [List.range_succ]
  | succ m ih =>
    intro t ht hle
    rw [walk_cons hi ht]
    by_cases h2 : t + i ≤ bed
    · rw [ih (t + i) h2 (by omega)]
      have hsub : (bed - t) / i = (bed - (t + i)) / i + 1 := by
        have h3 : i ≤ bed - t := by omega
        have h4 : bed - (t + i) = bed - t - i := by omega
        rw [h4, Nat.div_eq_sub_div hi h3]
      rw [hsub]
      conv_rhs => rw [List.range_succ_eq_map, List.map_cons, List.map_map]
      simp only [Nat.zero_mul, Nat.add_zero]
      congr 1
      apply List.map_congr_left
      intro k _
      simp only [Function.comp_apply, Nat.succ_eq_add_one]
      ring
    · rw [walk_nil (by omega)]
      have h0 : (bed - t) / i = 0 := Nat.div_eq_of_lt (by omega)
      rw [h0]
      simp [List.range_succ]

/-- C3: for every wake and bed time and every positive interval — with the
wake time denoting a time of day, i.e. parsing to at most 1439 minutes, as
every valid `HH:MM` input does — the planning walk yields the slot sequence
`mkSlot (wake + k * interval)` for `k = 0, …, (bedNorm - wake) / interval`,
hence a non-empty sequence of exactly
`floor((bedMinutesNormalized - wakeMinutes) / interval) + 1` slots, each a
step value reduced modulo 1440 into an hour/minute pair. -/
theorem planSlots_steps_and_count (wakeStr bedStr : String) (interval : Nat)
    (hw : wakeMinutesOf wakeStr ≤ 1439) (hi : 0 < interval) :
    planSlots wakeStr bedStr interval
      = (List.range ((bedMinutesNorm wakeStr bedStr - wakeMinutesOf wakeStr) / interval + 1)).map
          (fun k => mkSlot (wakeMinutesOf wakeStr + k * interval)) ∧
    planSlots wakeStr bedStr interval ≠ [] := by
  have hWB : wakeMinutesOf wakeStr ≤ bedMinutesNorm wakeStr bedStr := by
    unfold bedMinutesNorm
    split <;> omega
  have hwalk := walk_eq_range hi (wakeMinutesOf wakeStr) hWB
  have hne : ((List.range ((bedMinutesNorm wakeStr bedStr - wakeMinutesOf wakeStr) / interval + 1)).map
      (fun k => mkSlot (wakeMinutesOf wakeStr + k * interval))) ≠ [] := by
    simp [List.map_eq_nil_iff, List.range_eq_nil]
  simp only [planSlots]
  rw [hwalk, List.map_map]
  have hcomp : (mkSlot ∘ fun k => wakeMinutesOf wakeStr + k * interval)
      = fun k => mkSlot (wakeMinutesOf wakeStr + k * interval) := rfl
  rw [hcomp, if_neg hne]
  exact ⟨rfl, hne⟩

/-- C3 witness: `plan("07:00","23:00",120)` satisfies the hypotheses and
produces a non-empty sequence — 9 slots, 07:00 through 23:00. -/
theorem planSlots_steps_and_count_witness :
    0 < 120 ∧ wakeMinutesOf "07:00" ≤ 1439 ∧
    planSlots "07:00" "23:00" 120 ≠ [] ∧ (planSlots "07:00" "23:00" 120).length = 9 :=
  ⟨by decide, by decide,
    (planSlots_steps_and_count "07:00" "23:00" 120 (by decide) (by decide)).2,
    by decide⟩

/-- C4: planning with wake `"22:00"`, bed `"06:00"` and interval 180
normalizes the bed time to 1800 minutes and yields exactly the slots 22:00,
01:00 and 04:00, the latter two wrapped modulo 1440. -/
theorem planSlots_overnight_example :
    bedMinutesNorm "22:00" "06:00" = 1800 ∧
    planSlots "22:00" "06:00" 180
      = [⟨some 22, some 0⟩, ⟨some 1, some 0⟩, ⟨some 4, some 0⟩] := by
  constructor
  · rfl
  · rfl

/-- C5 counterexample: `"12"` is a malformed time (no `HH:MM` shape), yet the
planner does not treat it as `"07:00"`: its wake minutes are 720, not 420
(JS destructuring gives `wakeH = 12`, `wakeM = undefined`, so
`(12 || 7) * 60 + (undefined || 0) = 720`).  The bed-side default 1380 is
likewise not used. -/
theorem malformed_time_counterexample :
    isValidHM "12" = false ∧ wakeMinutesOf "12" = 720 ∧ wakeMinutesOf "12" ≠ 420 ∧
    bedMinutesRaw "12" = 720 ∧ bedMinutesRaw "12" ≠ 1380 := by
  refine ⟨rfl, rfl, ?_, rfl, ?_⟩ <;> decide

/-- C5 as it actually holds: the defaults are applied per component by the
`||` fallback, not per string.  Whenever both parsed components of a time
string are falsy (`NaN`/missing, or 0), the wake minutes are
`7 * 60 + 0 = 420` and the raw bed minutes are `23 * 60 + 0 = 1380`; a
malformed string with a parseable non-zero hour, such as `"12"`, instead
keeps that hour. -/
theorem malformed_time_defaults (s : String)
    (h1 : (parseHM s).1 = none ∨ (parseHM s).1 = some 0)
    (h2 : (parseHM s).2 = none ∨ (parseHM s).2 = some 0) :
    wakeMinutesOf s = 420 ∧ bedMinutesRaw s = 1380 := by
  unfold wakeMinutesOf bedMinutesRaw jsOrN
  rcases h1 with h | h <;> rcases h2 with h' | h' <;> rw [h, h'] <;> simp

/-- C5 witness: the fully malformed time `"abc"` parses to two falsy
components and indeed behaves as 07:00 / 23:00. -/
theorem malformed_time_defaults_witness :
    (parseHM "abc").1 = none ∧ (parseHM "abc").2 = none ∧
    wakeMinutesOf "abc" = 420 ∧ bedMinutesRaw "abc" = 1380 :=
  ⟨by decide, by decide,
    malformed_time_defaults "abc" (Or.inl (by decide)) (Or.inl (by decide))⟩

/-- C6 counterexample: with `reminderIntervalMins = 0` the code's `||`
fallback (App.js:115) produces an interval of 120, while the spec's
`max(15, reminderIntervalMins ?? 120)` formula produces 15 — and 120 is used
although `reminderIntervalMins` is neither null nor undefined. -/
theorem interval_counterexample :
    intervalOf ⟨false, true, some 0, none, none⟩ = 120 ∧
    intervalFromSpec ⟨false, true, some 0, none, none⟩ = 15 := by
  constructor <;> decide

/-- C6 as it actually holds: the interval is `max(15, reminderIntervalMins
|| 120)`, so 120 is used when the stored value is null/undefined or 0, any
other value is clamped to at least 15, and planning with a stored interval of
5 is identical to planning with 15. -/
theorem interval_clamp (s : Settings) (n : Nat) (wakeStr bedStr : String) :
    (s.reminderIntervalMins = none ∨ s.reminderIntervalMins = some 0 → intervalOf s = 120) ∧
    (s.reminderIntervalMins = some n → 0 < n → intervalOf s = max 15 n) ∧
    planSlots wakeStr bedStr (intervalOf { s with reminderIntervalMins := some 5 })
      = planSlots wakeStr bedStr (intervalOf { s with reminderIntervalMins := some 15 }) := by
  refine ⟨?_, ?_, ?_⟩
  · rintro (h | h) <;> simp [intervalOf, jsOrN, h]
  · intro h hn
    simp [intervalOf, jsOrN, h, Nat.pos_iff_ne_zero.mp hn]
  · have h5 : intervalOf { s with reminderIntervalMins := some 5 } = 15 := by
      simp [intervalOf, jsOrN]
    have h15 : intervalOf { s with reminderIntervalMins := some 15 } = 15 := by
      simp [intervalOf, jsOrN]
    rw [h5, h15]

/-- C6 witness: a settings record with stored interval 0 plans with 120, and
one with stored interval 30 plans with 30. -/
theorem interval_clamp_witness :
    intervalOf ⟨false, true, some 0, none, none⟩ = 120 ∧
    intervalOf ⟨false, true, some 30, none, none⟩ = max 15 30 :=
  ⟨(interval_clamp ⟨false, true, some 0, none, none⟩ 30 "" "").1 (Or.inr rfl),
    (interval_clamp ⟨false, true, some 30, none, none⟩ 30 "" "").2.1 rfl (by decide)⟩

lemma addToLog_no_match (today : String) (a : Nat) :
    ∀ log : List IntakeRecord, (∀ r ∈ log, r.date ≠ today) →
      addToLog today a log = log ++ [⟨today, a⟩] := by
  intro log h
  induction log with
  | nil => rfl
  | cons r rest ih =>
    have hr : r.date ≠ today := h r (by simp)
    simp only [addToLog, if_neg hr, List.cons_append]
    rw [ih (fun x hx => h x (by simp [hx]))]

lemma addToLog_found_last (today : String) (a x : Nat) :
    ∀ log : List IntakeRecord, (∀ r ∈ log, r.date ≠ today) →
      addToLog today a (log ++ [⟨today, x⟩]) = log ++ [⟨today, x + a⟩] := by
  intro log h
  induction log with
  | nil => simp [addToLog]
  | cons r rest ih =>
    have hr : r.date ≠ today := h r (by simp)
    simp only [List.cons_append, addToLog, if_neg hr, List.append_eq]
    rw [ih (fun y hy => h y (by simp [hy]))]

/-- C8 as it actually holds: with a user profile present and no record yet for
today's date, `addIntake(250)` then `addIntake(300)` appends exactly one
record for today holding 550, and a subsequent `resetToday()` removes that
record entirely, restoring the log exactly (records for other dates
untouched).  When a record for today already exists, the adds instead
increment it — see the counterexample. -/
theorem addIntake_twice_then_reset (u : UserProfile) (today : String)
    (log : List IntakeRecord) (h : ∀ r ∈ log, r.date ≠ today) :
    addIntake (some u) today (addIntake (some u) today log 250) 300
      = log ++ [⟨today, 550⟩] ∧
    resetToday today (addIntake (some u) today (addIntake (some u) today log 250) 300)
      = log := by
  have h2 : addIntake (some u) today (addIntake (some u) today log 250) 300
      = log ++ [⟨today, 550⟩] := by
    simp only [addIntake]
    rw [addToLog_no_match today 250 log h, addToLog_found_last today 300 250 log h]
  refine ⟨h2, ?_⟩
  rw [h2]
  unfold resetToday
  rw [List.filter_append]
  have hone : List.filter (fun r => r.date != today) [(⟨today, 550⟩ : IntakeRecord)] = [] := by
    simp
  rw [hone, List.append_nil]
  apply List.filter_eq_self.mpr
  intro r hr
  simp [bne_iff_ne]
  exact h r hr

/-- C8 witness: from a log holding only yesterday's record, the two adds
append today's 550 record and the reset restores the original log. -/
theorem addIntake_twice_then_reset_witness :
    addIntake (some ⟨"A", none, none, 2000⟩) "2025-01-02"
        (addIntake (some ⟨"A", none, none, 2000⟩) "2025-01-02"
          [⟨"2025-01-01", 400⟩] 250) 300
      = [⟨"2025-01-01", 400⟩, ⟨"2025-01-02", 550⟩] ∧
    resetToday "2025-01-02"
        (addIntake (some ⟨"A", none, none, 2000⟩) "2025-01-02"
          (addIntake (some ⟨"A", none, none, 2000⟩) "2025-01-02"
            [⟨"2025-01-01", 400⟩] 250) 300)
      = [⟨"2025-01-01", 400⟩] :=
  addIntake_twice_then_reset ⟨"A", none, none, 2000⟩ "2025-01-02"
    [⟨"2025-01-01", 400⟩] (by decide)

/-- C8 counterexample: with a record for today already present (intake 100) —
a log with one record per date and a user profile present — the two adds
leave today's single record at 650, not 550: the claimed universal 550 fails
whenever today's record pre-exists. -/
theorem addIntake_twice_counterexample :
    addIntake (some ⟨"A", none, none, 2000⟩) "2025-01-01"
        (addIntake (some ⟨"A", none, none, 2000⟩) "2025-01-01"
          [⟨"2025-01-01", 100⟩] 250) 300
      = [⟨"2025-01-01", 650⟩] ∧
    (⟨"2025-01-01", 550⟩ : IntakeRecord)
      ∉ addIntake (some ⟨"A", none, none, 2000⟩) "2025-01-01"
          (addIntake (some ⟨"A", none, none, 2000⟩) "2025-01-01"
            [⟨"2025-01-01", 100⟩] 250) 300 := by
  constructor <;> decide

/-- C10: with no user profile, `addIntake` returns without touching the
intake log, for every amount: the log is exactly unchanged. -/
theorem addIntake_no_user (today : String) (log : List IntakeRecord) (amount : Nat) :
    addIntake none today log amount = log := rfl

lemma registerAll_registered_mono (b : Behavior) :
    ∀ (slots : List Slot) (k : Nat) (w : World) (x : Nat),
      x ∈ w.registered → x ∈ (registerAll b slots k w).world.registered := by
  intro slots
  induction slots with
  | nil => intro k w x hx; exact hx
  | cons sl rest ih =>
    intro k w x hx
    simp only [registerAll]
    cases h : b.schedule k with
    | none => exact hx
    | some id =>
      exact ih (k + 1) { w with registered := w.registered ++ [id] } x (by simp [hx])

lemma registerAll_ids_registered (b : Behavior) :
    ∀ (slots : List Slot) (k : Nat) (w : World) (x : Nat),
      x ∈ (registerAll b slots k w).ids → x ∈ (registerAll b slots k w).world.registered := by
  intro slots
  induction slots with
  | nil => intro k w x hx; simp [registerAll] at hx
  | cons sl rest ih =>
    intro k w x hx
    simp only [registerAll] at hx ⊢
    cases h : b.schedule k with
    | none => rw [h] at hx; simp at hx
    | some id =>
      rw [h] at hx
      simp only [List.mem_cons] at hx
      rcases hx with rfl | hx
      · exact registerAll_registered_mono b rest (k + 1) _ x (by simp)
      · exact ih (k + 1) _ x hx

lemma registerAll_no_throw (b : Behavior) (hs : ∀ k, (b.schedule k).isSome = true) :
    ∀ (slots : List Slot) (k : Nat) (w : World),
      (registerAll b slots k w).threw = false ∧
      (registerAll b slots k w).world.registered = w.registered ++ (registerAll b slots k w).ids ∧
      (registerAll b slots k w).world.notifIds = w.notifIds := by
  intro slots
  induction slots with
  | nil => intro k w; simp [registerAll]
  | cons sl rest ih =>
    intro k w
    simp only [registerAll]
    cases h : b.schedule k with
    | none => exact absurd (h ▸ hs k) (by simp)
    | some id =>
      have := ih (k + 1) { w with registered := w.registered ++ [id] }
      refine ⟨this.1, ?_, this.2.2⟩
      rw [this.2.1]
      simp

lemma cancelAndClear_allOk (w : World) (b : Behavior) (hl : b.loadOk = true)
    (hc : b.clearSaveOk = true) (hk : ∀ id, b.cancelOk id = true) :
    (cancelAndClear w b).notifIds = [] ∧
    ∀ id ∈ w.notifIds, id ∉ (cancelAndClear w b).registered := by
  have hall : w.notifIds.all b.cancelOk = true :=
    List.all_eq_true.mpr fun x _ => hk x
  constructor
  · simp [cancelAndClear, hl, hall, hc]
  · intro id hid hmem
    simp only [cancelAndClear, hl, if_true, hall, hc] at hmem
    have h2 := (List.mem_filter.mp hmem).2
    simp [hk id] at h2
    exact h2 hid

lemma cancelAndClear_consistent (w : World) (b : Behavior) (hl : b.loadOk = true)
    (hc : b.clearSaveOk = true) (hk : ∀ id, b.cancelOk id = true)
    (hinv : w.notifIds = w.registered) :
    cancelAndClear w b = ⟨[], []⟩ := by
  have hall : w.notifIds.all b.cancelOk = true :=
    List.all_eq_true.mpr fun x _ => hk x
  have hfil : w.registered.filter (fun r => !(w.notifIds.contains r && b.cancelOk r)) = [] := by
    apply List.filter_eq_nil_iff.mpr
    intro r hr
    rw [← hinv] at hr
    simp [hr, hk r]
  have hstep : cancelAndClear w b
      = { notifIds := [],
          registered := w.registered.filter (fun r => !(w.notifIds.contains r && b.cancelOk r)) } := by
    simp [cancelAndClear, hl, hall, hc]
  rw [hstep, hfil]

/-- Profile used by the concrete runs below. -/
def sampleUser : UserProfile := ⟨"A", some "07:00", some "23:00", 2000⟩

/-- Settings used by the concrete runs below: reminders on, interval 480, so
the plan is the three slots 07:00, 15:00 and 23:00. -/
def sampleSettings : Settings := ⟨false, true, some 480, none, none⟩

/-- Collaborators that all succeed except the second registration call, which
throws; the first call returns identifier 1. -/
def throwAtSecond : Behavior :=
  ⟨true, fun _ => true, true, false, true, fun k => if k = 0 then some 1 else none, true⟩

/-- Collaborators that all succeed; the `k`-th registration returns
identifier `k + 1`. -/
def allOk : Behavior :=
  ⟨true, fun _ => true, true, false, true, fun k => some (k + 1), true⟩

/-- C1 counterexample: when the second registration throws after the first
returned identifier 1, `scheduleReminders` returns `[]` — not the list `[1]`
of identifiers successfully collected up to that point — even though trigger
1 stays registered.  The claimed return of the partial list fails. -/
theorem scheduleReminders_discards_partial :
    (registerAll throwAtSecond
        (planSlots (wakeStrOf sampleUser sampleSettings) (bedStrOf sampleUser sampleSettings)
          (intervalOf sampleSettings)) 0 (cancelAndClear ⟨[], []⟩ throwAtSecond)).ids = [1] ∧
    scheduleReminders (some sampleUser) (some sampleSettings) ⟨[], []⟩ throwAtSecond
      = (⟨[], [1]⟩, []) := by
  constructor <;> rfl

/-- C1 as it actually holds: an exception thrown during trigger registration
is caught at the top level, but the function then returns the empty list —
the identifiers collected before the failure are discarded from the return
value (and never persisted; the storage keeps the empty list written by the
cancellation step) — while the triggers already registered are not rolled
back: each collected identifier remains registered with the platform. -/
theorem scheduleReminders_registration_throw (u : UserProfile) (s : Settings)
    (w : World) (b : Behavior)
    (hen : s.remindersEnabled = true) (hpt : b.permThrows = false) (hpg : b.permGranted = true)
    (hthrew : (registerAll b (planSlots (wakeStrOf u s) (bedStrOf u s) (intervalOf s)) 0
        (cancelAndClear w b)).threw = true) :
    scheduleReminders (some u) (some s) w b
      = ((registerAll b (planSlots (wakeStrOf u s) (bedStrOf u s) (intervalOf s)) 0
          (cancelAndClear w b)).world, []) ∧
    ∀ id ∈ (registerAll b (planSlots (wakeStrOf u s) (bedStrOf u s) (intervalOf s)) 0
        (cancelAndClear w b)).ids,
      id ∈ (registerAll b (planSlots (wakeStrOf u s) (bedStrOf u s) (intervalOf s)) 0
        (cancelAndClear w b)).world.registered := by
  constructor
  · have hbody : scheduleRemindersBody (some u) (some s) w b
        = ((registerAll b (planSlots (wakeStrOf u s) (bedStrOf u s) (intervalOf s)) 0
            (cancelAndClear w b)).world, Except.error ()) := by
      simp [scheduleRemindersBody, hen, hpt, hpg, hthrew]
    simp [scheduleReminders, hbody]
  · intro id hid
    exact registerAll_ids_registered b _ 0 _ id hid

/-- C1 witness: the concrete throwing run satisfies the hypotheses, and the
caught failure indeed yields the throwing loop's world together with `[]`. -/
theorem scheduleReminders_registration_throw_witness :
    (registerAll throwAtSecond
        (planSlots (wakeStrOf sampleUser sampleSettings) (bedStrOf sampleUser sampleSettings)
          (intervalOf sampleSettings)) 0 (cancelAndClear ⟨[], []⟩ throwAtSecond)).threw = true ∧
    scheduleReminders (some sampleUser) (some sampleSettings) ⟨[], []⟩ throwAtSecond
      = ((registerAll throwAtSecond
          (planSlots (wakeStrOf sampleUser sampleSettings) (bedStrOf sampleUser sampleSettings)
            (intervalOf sampleSettings)) 0 (cancelAndClear ⟨[], []⟩ throwAtSecond)).world, []) :=
  ⟨by decide,
    (scheduleReminders_registration_throw sampleUser sampleSettings ⟨[], []⟩ throwAtSecond
      rfl rfl rfl (by decide)).1⟩

/-- C2 counterexample: an invocation completed through the caught scheduling
failure of `throwAtSecond` (starting from the consistent empty state) leaves
the persisted identifier list empty while trigger 1 is still registered with
the platform: the persisted set does not mirror the registered triggers. -/
theorem persisted_mirror_counterexample :
    (scheduleReminders (some sampleUser) (some sampleSettings) ⟨[], []⟩ throwAtSecond).1.notifIds
      = [] ∧
    (scheduleReminders (some sampleUser) (some sampleSettings) ⟨[], []⟩ throwAtSecond).1.registered
      = [1] := by
  constructor <;> rfl

/-- C2 as it actually holds: the mirror invariant is preserved by every
invocation in which no collaborator call fails — the ids load and both saves
reach the store, every cancellation resolves, the permission request does not
throw and no registration throws.  Starting from a state whose persisted list
equals the registered triggers, the final persisted list again equals the
final registered triggers (on any path: disabled, permission denied, or full
scheduling).  A caught scheduling failure, by contrast, can break the mirror
— see the counterexample. -/
theorem scheduleReminders_preserves_mirror (user : Option UserProfile)
    (settings : Option Settings) (w : World) (b : Behavior)
    (hl : b.loadOk = true) (hc : b.clearSaveOk = true) (hf : b.finalSaveOk = true)
    (hk : ∀ id, b.cancelOk id = true) (hpt : b.permThrows = false)
    (hs : ∀ k, (b.schedule k).isSome = true)
    (hinv : w.notifIds = w.registered) :
    (scheduleReminders user settings w b).1.notifIds
      = (scheduleReminders user settings w b).1.registered := by
  have hcc : cancelAndClear w b = ⟨[], []⟩ := cancelAndClear_consistent w b hl hc hk hinv
  cases user with
  | none => simp [scheduleReminders, scheduleRemindersBody, hcc]
  | some u =>
    cases settings with
    | none => simp [scheduleReminders, scheduleRemindersBody, hcc]
    | some s =>
      by_cases hen : s.remindersEnabled
      · by_cases hpg : b.permGranted
        · have hreg := registerAll_no_throw b hs
            (planSlots (wakeStrOf u s) (bedStrOf u s) (intervalOf s)) 0 ⟨[], []⟩
          simp only [scheduleReminders, scheduleRemindersBody, hcc, hen, hpt, hpg, hreg.1,
            if_true, if_false, Bool.false_eq_true, ite_false, ite_true, hf]
          rw [hreg.2.1]
          simp
        · simp [scheduleReminders, scheduleRemindersBody, hcc, hen, hpt, hpg]
      · simp [scheduleReminders, scheduleRemindersBody, hcc, hen]

/-- C2 witness: a fully successful re-plan from the consistent prior state
`⟨[5], [5]⟩` re-establishes the mirror. -/
theorem scheduleReminders_preserves_mirror_witness :
    (scheduleReminders (some sampleUser) (some sampleSettings) ⟨[5], [5]⟩ allOk).1.notifIds
      = (scheduleReminders (some sampleUser) (some sampleSettings) ⟨[5], [5]⟩ allOk).1.registered :=
  scheduleReminders_preserves_mirror (some sampleUser) (some sampleSettings) ⟨[5], [5]⟩ allOk
    rfl rfl rfl (fun _ => rfl) rfl (fun _ => rfl) rfl

/-- C7: with reminders disabled in the settings, or with no user profile,
`scheduleReminders` — under collaborators whose ids load, cancellations and
empty-list save succeed — cancels every previously persisted trigger, leaves
the persisted identifier list empty, and returns the empty list. -/
theorem scheduleReminders_disabled (user : Option UserProfile) (settings : Option Settings)
    (w : World) (b : Behavior)
    (hdis : user = none ∨ ∃ s, settings = some s ∧ s.remindersEnabled = false)
    (hl : b.loadOk = true) (hc : b.clearSaveOk = true) (hk : ∀ id, b.cancelOk id = true) :
    (scheduleReminders user settings w b).2 = [] ∧
    (scheduleReminders user settings w b).1.notifIds = [] ∧
    ∀ id ∈ w.notifIds, id ∉ (scheduleReminders user settings w b).1.registered := by
  have hcc := cancelAndClear_allOk w b hl hc hk
  have hres : scheduleReminders user settings w b = (cancelAndClear w b, []) := by
    rcases hdis with rfl | ⟨s, rfl, hen⟩
    · simp [scheduleReminders, scheduleRemindersBody]
    · cases user with
      | none => simp [scheduleReminders, scheduleRemindersBody]
      | some u => simp [scheduleReminders, scheduleRemindersBody, hen]
  rw [hres]
  exact ⟨rfl, hcc.1, hcc.2⟩

/-- C7 witness: with no user profile and the previously persisted trigger 3,
the run returns `[]`, clears the persisted list, and trigger 3 is no longer
registered. -/
theorem scheduleReminders_disabled_witness :
    (scheduleReminders none none ⟨[3], [3]⟩ allOk).2 = [] ∧
    (scheduleReminders none none ⟨[3], [3]⟩ allOk).1.notifIds = [] ∧
    3 ∉ (scheduleReminders none none ⟨[3], [3]⟩ allOk).1.registered := by
  have h := scheduleReminders_disabled none none ⟨[3], [3]⟩ allOk (Or.inl rfl)
    rfl rfl (fun _ => rfl)
  exact ⟨h.1, h.2.1, h.2.2 3 (by decide)⟩

/-- C9: for every input and every collaborator behaviour — including ones
where the permission request or any registration call throws —
`scheduleReminders` returns normally with a list: either the body completed
and the list is its result, or the caught failure degraded the result to the
empty list.  No exception escapes to the caller. -/
theorem scheduleReminders_no_crash (user : Option UserProfile) (settings : Option Settings)
    (w : World) (b : Behavior) :
    (scheduleReminders user settings w b).2 = [] ∨
    (scheduleRemindersBody user settings w b).2
      = Except.ok ((scheduleReminders user settings w b).2) := by
  rcases h : scheduleRemindersBody user settings w b with ⟨w', r⟩
  cases r with
  | ok ids => right; simp [scheduleReminders, h]
  | error e => left; simp [scheduleReminders, h]
